import Mathlib

/-!
Verification of `catalyst/exchange/exchange_blotter.py`: the
`TradingPairFeeSchedule` commission model and the `TradingPairFixedSlippage`
slippage model.

Numbers (prices, amounts, fees, spreads) are Python floats in the source; we
embed them as exact rationals (`ℚ`).  Exceptions are embedded with
`Except PyErr`; a generator that may raise mid-stream is embedded as the list
of pairs it yielded before stopping together with an optional uncaught
exception.  Collaborator classes (`Order`, `Transaction`, the market-data
accessor, `LiquidityExceeded`) live elsewhere in the repository and are
modelled from the spec's description of their interfaces.
-/

namespace CatalystBlotter

/-- Exceptions that can arise inside the engines: `LiquidityExceeded` is the
liquidity-policy control signal imported by the source; `typeError` embeds
Python's `TypeError` (raised e.g. by applying the bitwise `&` operator to
floats); `otherError` stands for any further exception class. -/
inductive PyErr where
  | liquidityExceeded
  | typeError
  | otherError
deriving DecidableEq, Repr

/-- Modelled from the spec: an `Order` (owned by the blotter, defined outside
`src/`) exposes `id`, `asset`, `amount` (original signed requested quantity),
`open_amount` (signed remaining quantity) and a `triggered` flag.
`check_triggers(price, timestamp)` updates `triggered` as a side effect; for
the one fixed (price, timestamp) of a single bar its outcome is a fixed
boolean, which we store in the order as `trig_result`. -/
structure Order where
  id : ℕ
  asset : ℕ
  amount : ℚ
  open_amount : ℚ
  triggered : Bool
  trig_result : Bool
deriving DecidableEq, Repr

/-- Modelled from the spec: a `Transaction` (defined outside `src/`) is an
immutable record of instrument, executed amount, execution price, timestamp
and originating order id. -/
structure Transaction where
  asset : ℕ
  amount : ℚ
  price : ℚ
  dt : ℚ
  order_id : ℕ
deriving DecidableEq, Repr

/-- Modelled from the spec: the market-data accessor for the current bar.
`data.current(asset, "volume")` returns `volume`, `data.current(asset,
"close")` returns `close`, and `data.current_dt` returns `current_dt`; the
snapshot is fixed for the bar, so repeated reads return the same values. -/
structure MarketData where
  volume : ℚ
  close : ℚ
  current_dt : ℚ
deriving DecidableEq, Repr

/-- Result of one `simulate` call: `fills` are the (order, transaction) pairs
the generator yielded before finishing (normally, by a liquidity break, or by
an uncaught exception), `err` is the uncaught exception if one escaped,
`calls` counts the invocations of `data.current(asset, field)` made during
the call, and `volume_for_bar` is the final value of the per-bar accumulator
`self._volume_for_bar`. -/
structure SimResult where
  fills : List (Order × Transaction)
  err : Option PyErr
  calls : ℕ
  volume_for_bar : ℚ
deriving DecidableEq, Repr

/-- Modelled from the spec: `order.check_triggers(price, dt)` sets the
order's `triggered` flag from its trigger condition at the bar's price and
timestamp (the precomputed `trig_result`). -/
def check_triggers (o : Order) (_price _dt : ℚ) : Order :=
  { o with triggered := o.trig_result }

/-- Embeds `TradingPairFixedSlippage.process_order` (lines 125-137).  It first
reads `price = data.current(order.asset, 'close')` (one accessor call, counted
in the second component).  For `order.amount > 0` it returns the pair
`(price * (1 + spread), order.amount)`.  Otherwise the source evaluates
`price & (1 - self.spread)`: `&` is Python's bitwise AND, and both operands
are floats (the close price from market data and `1 - spread`), so the
expression raises `TypeError` — floats do not support `&` even at integral
values.  The price component is an `Option` because the caller `simulate`
tests `execution_price is not None`. -/
def process_order (spread : ℚ) (data : MarketData) (order : Order) :
    Except PyErr (Option ℚ × ℚ) × ℕ :=
  let price := data.close
  if 0 < order.amount then
    (Except.ok (some (price * (1 + spread)), order.amount), 1)
  else
    (Except.error PyErr.typeError, 1)

/-- Embeds the `for order in orders_for_asset` loop of
`TradingPairFixedSlippage.simulate` (lines 96-123), generically in the
`self.process_order` method (`proc`) it dispatches to — `proc` returns the
(price, volume) outcome or an exception, paired with the number of
`data.current` calls it made.  Orders with `open_amount == 0` are skipped;
`check_triggers` is evaluated and untriggered orders are skipped; then
`proc` runs inside `try`: a `LiquidityExceeded` breaks the loop (no error
escapes), any other exception propagates, ending the generator with that
error; on success with a non-`None` price a `Transaction` with amount
`abs(execution_volume)` is built, the accumulator grows by
`abs(transaction.amount)`, and the pair is yielded. -/
def simLoop (proc : Order → Except PyErr (Option ℚ × ℚ) × ℕ) (price dt : ℚ) :
    List Order → SimResult
  | [] => ⟨[], none, 0, 0⟩
  | o :: rest =>
    if o.open_amount = 0 then simLoop proc price dt rest
    else
      let o2 := check_triggers o price dt
      if o2.triggered = false then simLoop proc price dt rest
      else
        match proc o2 with
        | (Except.error e, c) =>
          if e = PyErr.liquidityExceeded then ⟨[], none, c, 0⟩
          else ⟨[], some e, c, 0⟩
        | (Except.ok (none, _), c) =>
          let r := simLoop proc price dt rest
          ⟨r.fills, r.err, c + r.calls, r.volume_for_bar⟩
        | (Except.ok (some adjPrice, vol), c) =>
          let t : Transaction := ⟨o2.asset, |vol|, adjPrice, dt, o2.id⟩
          let r := simLoop proc price dt rest
          ⟨(o2, t) :: r.fills, r.err, c + r.calls, |t.amount| + r.volume_for_bar⟩

/-- Embeds `TradingPairFixedSlippage.simulate` (lines 84-123), generic in the
dispatched `process_order`.  It resets `self._volume_for_bar` to 0, reads the
bar's volume (one `data.current` call) and returns the empty generator when
it is 0; otherwise it reads the close price (a second `data.current` call)
and `data.current_dt`, then runs the order loop. -/
def simulate_gen (proc : Order → Except PyErr (Option ℚ × ℚ) × ℕ)
    (data : MarketData) (orders : List Order) : SimResult :=
  if data.volume = 0 then ⟨[], none, 1, 0⟩
  else
    let r := simLoop proc data.close data.current_dt orders
    ⟨r.fills, r.err, 2 + r.calls, r.volume_for_bar⟩

/-- `TradingPairFixedSlippage.simulate` with the class's own `process_order`
(the dynamic dispatch `self.process_order` resolved at this class). -/
def simulate (spread : ℚ) (data : MarketData) (orders : List Order) :
    SimResult :=
  simulate_gen (process_order spread data) data orders

/-- Embeds `TradingPairFeeSchedule.calculate` (lines 48-62):
`cost = abs(transaction.amount) * transaction.price`, and the fee is
`cost * self.taker_fee` ("Assuming just the taker fee for now").  The
`maker_fee` rate and the `order` argument are accepted but unused, exactly as
in the source. -/
def calculate (_maker_fee taker_fee : ℚ) (_order : Order)
    (transaction : Transaction) : ℚ :=
  let cost := |transaction.amount| * transaction.price
  cost * taker_fee

/-- Spec-side predicate used to reason about batches: every order in `l` that
is neither skipped for zero `open_amount` nor untriggered gets a successful
(non-raising) result from `proc`. -/
def cleanOrders (proc : Order → Except PyErr (Option ℚ × ℚ) × ℕ)
    (price dt : ℚ) (l : List Order) : Prop :=
  ∀ o ∈ l, o.open_amount ≠ 0 → (check_triggers o price dt).triggered = true →
    ∃ v c, proc (check_triggers o price dt) = (Except.ok v, c)

/-- Spec-side count of the orders of a batch that reach the
execution-volume determination step (`process_order`): orders are scanned in
sequence, zero-`open_amount` and untriggered orders are passed over, an order
whose processing raises is the last one counted, and a successfully processed
order counts one and scanning continues. -/
def processed_count (proc : Order → Except PyErr (Option ℚ × ℚ) × ℕ)
    (price dt : ℚ) : List Order → ℕ
  | [] => 0
  | o :: rest =>
    if o.open_amount = 0 then processed_count proc price dt rest
    else if (check_triggers o price dt).triggered = false then
      processed_count proc price dt rest
    else
      match (proc (check_triggers o price dt)).1 with
      | Except.error _ => 1
      | Except.ok _ => 1 + processed_count proc price dt rest

/-- `DEFAULT_SLIPPAGE_SPREAD = 0.02` (line 16). -/
def DEFAULT_SLIPPAGE_SPREAD : ℚ := 2 / 100

/-- `DEFAULT_MAKER_FEE = 0.001` (line 17). -/
def DEFAULT_MAKER_FEE : ℚ := 1 / 1000

/-- `DEFAULT_TAKER_FEE = 0.002` (line 18). -/
def DEFAULT_TAKER_FEE : ℚ := 2 / 1000

section StepLemmas

variable (proc : Order → Except PyErr (Option ℚ × ℚ) × ℕ) (price dt : ℚ)

lemma simLoop_nil : simLoop proc price dt [] = ⟨[], none, 0, 0⟩ := rfl

lemma simLoop_cons_zero (o : Order) (l : List Order) (h : o.open_amount = 0) :
    simLoop proc price dt (o :: l) = simLoop proc price dt l := by
  simp [simLoop, h]

lemma simLoop_cons_untriggered (o : Order) (l : List Order)
    (h0 : ¬ o.open_amount = 0)
    (ht : (check_triggers o price dt).triggered = false) :
    simLoop proc price dt (o :: l) = simLoop proc price dt l := by
  simp [simLoop, h0, ht]

lemma simLoop_cons_error (o : Order) (l : List Order) (e : PyErr) (c : ℕ)
    (h0 : ¬ o.open_amount = 0)
    (ht : (check_triggers o price dt).triggered = true)
    (he : proc (check_triggers o price dt) = (Except.error e, c)) :
    simLoop proc price dt (o :: l) =
      if e = PyErr.liquidityExceeded then ⟨[], none, c, 0⟩
      else ⟨[], some e, c, 0⟩ := by
  simp [simLoop, h0, ht, he]

lemma simLoop_cons_ok_none (o : Order) (l : List Order) (vol : ℚ) (c : ℕ)
    (h0 : ¬ o.open_amount = 0)
    (ht : (check_triggers o price dt).triggered = true)
    (he : proc (check_triggers o price dt) = (Except.ok (none, vol), c)) :
    simLoop proc price dt (o :: l) =
      ⟨(simLoop proc price dt l).fills, (simLoop proc price dt l).err,
       c + (simLoop proc price dt l).calls,
       (simLoop proc price dt l).volume_for_bar⟩ := by
  simp [simLoop, h0, ht, he]

lemma simLoop_cons_ok_some (o : Order) (l : List Order) (px vol : ℚ) (c : ℕ)
    (h0 : ¬ o.open_amount = 0)
    (ht : (check_triggers o price dt).triggered = true)
    (he : proc (check_triggers o price dt) = (Except.ok (some px, vol), c)) :
    simLoop proc price dt (o :: l) =
      ⟨(check_triggers o price dt,
        ⟨(check_triggers o price dt).asset, |vol|, px, dt,
         (check_triggers o price dt).id⟩) :: (simLoop proc price dt l).fills,
       (simLoop proc price dt l).err,
       c + (simLoop proc price dt l).calls,
       |vol| + (simLoop proc price dt l).volume_for_bar⟩ := by
  simp [simLoop, h0, ht, he, abs_abs]

end StepLemmas

/-- Running the loop on `l1 ++ l2` when every processed order of `l1`
succeeds: the fills concatenate, the error and termination mode are those of
`l2`, and the accessor calls and accumulated volume add. -/
lemma simLoop_append_clean (proc : Order → Except PyErr (Option ℚ × ℚ) × ℕ)
    (price dt : ℚ) (l1 l2 : List Order)
    (h : cleanOrders proc price dt l1) :
    simLoop proc price dt (l1 ++ l2) =
      ⟨(simLoop proc price dt l1).fills ++ (simLoop proc price dt l2).fills,
       (simLoop proc price dt l2).err,
       (simLoop proc price dt l1).calls + (simLoop proc price dt l2).calls,
       (simLoop proc price dt l1).volume_for_bar +
         (simLoop proc price dt l2).volume_for_bar⟩ := by
  induction l1 with
  | nil => simp [simLoop_nil]
  | cons o l1 ih =>
    have hcl : cleanOrders proc price dt l1 :=
      fun a ha => h a (List.mem_cons_of_mem _ ha)
    have ih2 := ih hcl
    by_cases h0 : o.open_amount = 0
    · rw [List.cons_append, simLoop_cons_zero proc price dt o _ h0,
        simLoop_cons_zero proc price dt o _ h0, ih2]
    · by_cases ht : (check_triggers o price dt).triggered = true
      · obtain ⟨v, c, hv⟩ := h o (List.mem_cons_self o l1) h0 ht
        obtain ⟨op, vol⟩ := v
        cases op with
        | none =>
          rw [List.cons_append, simLoop_cons_ok_none proc price dt o _ vol c h0 ht hv,
            simLoop_cons_ok_none proc price dt o _ vol c h0 ht hv, ih2]
          simp [Nat.add_assoc]
        | some px =>
          rw [List.cons_append, simLoop_cons_ok_some proc price dt o _ px vol c h0 ht hv,
            simLoop_cons_ok_some proc price dt o _ px vol c h0 ht hv, ih2]
          simp [Nat.add_assoc, add_assoc]
      · have ht2 : (check_triggers o price dt).triggered = false := by
          cases hh : (check_triggers o price dt).triggered
          · rfl
          · exact absurd hh ht
        rw [List.cons_append, simLoop_cons_untriggered proc price dt o _ h0 ht2,
          simLoop_cons_untriggered proc price dt o _ h0 ht2, ih2]

/-- Dropping the zero-`open_amount` orders from a batch does not change the
result of the loop at all. -/
lemma simLoop_filter_open (proc : Order → Except PyErr (Option ℚ × ℚ) × ℕ)
    (price dt : ℚ) (l : List Order) :
    simLoop proc price dt (l.filter fun o => !decide (o.open_amount = 0)) =
      simLoop proc price dt l := by
  induction l with
  | nil => simp
  | cons o l ih =>
    by_cases h0 : o.open_amount = 0
    · rw [simLoop_cons_zero proc price dt o _ h0, ← ih]
      simp [List.filter, h0]
    · have hf : (o :: l).filter (fun o => !decide (o.open_amount = 0)) =
          o :: l.filter (fun o => !decide (o.open_amount = 0)) := by
        simp [List.filter, h0]
      rw [hf]
      by_cases ht : (check_triggers o price dt).triggered = true
      · rcases hv : proc (check_triggers o price dt) with ⟨res, c⟩
        cases res with
        | error e =>
          rw [simLoop_cons_error proc price dt o _ e c h0 ht hv,
            simLoop_cons_error proc price dt o _ e c h0 ht hv]
        | ok v =>
          obtain ⟨op, vol⟩ := v
          cases op with
          | none =>
            rw [simLoop_cons_ok_none proc price dt o _ vol c h0 ht hv,
              simLoop_cons_ok_none proc price dt o _ vol c h0 ht hv, ih]
          | some px =>
            rw [simLoop_cons_ok_some proc price dt o _ px vol c h0 ht hv,
              simLoop_cons_ok_some proc price dt o _ px vol c h0 ht hv, ih]
      · have ht2 : (check_triggers o price dt).triggered = false := by
          cases hh : (check_triggers o price dt).triggered
          · rfl
          · exact absurd hh ht
        rw [simLoop_cons_untriggered proc price dt o _ h0 ht2,
          simLoop_cons_untriggered proc price dt o _ h0 ht2, ih]

/-- Shape of the fills the loop produces with the concrete `process_order`:
the yielded orders form a sublist (by id) of the batch, and every yielded
transaction has amount `|order.amount|`, which is positive, for an order with
nonzero `open_amount`. -/
lemma simLoop_fills_spec (spread : ℚ) (data : MarketData) (price dt : ℚ)
    (l : List Order) :
    (((simLoop (process_order spread data) price dt l).fills.map
        fun pr => pr.1.id).Sublist (l.map Order.id)) ∧
    ∀ pr ∈ (simLoop (process_order spread data) price dt l).fills,
      0 < pr.2.amount ∧ pr.2.amount = |pr.1.amount| ∧ pr.1.open_amount ≠ 0 := by
  induction l with
  | nil => simp [simLoop_nil]
  | cons o l ih =>
    by_cases h0 : o.open_amount = 0
    · rw [simLoop_cons_zero _ price dt o _ h0]
      exact ⟨ih.1.cons o.id, ih.2⟩
    · by_cases ht : (check_triggers o price dt).triggered = true
      · by_cases ha : 0 < (check_triggers o price dt).amount
        · have hv : process_order spread data (check_triggers o price dt) =
              (Except.ok (some (data.close * (1 + spread)),
                (check_triggers o price dt).amount), 1) := by
            simp [process_order, ha]
          rw [simLoop_cons_ok_some _ price dt o _ _ _ _ h0 ht hv]
          refine ⟨?_, ?_⟩
          · simpa [check_triggers] using ih.1.cons₂ o.id
          · intro pr hpr
            rcases List.mem_cons.mp hpr with h | h
            · subst h
              refine ⟨?_, ?_, ?_⟩
              · simpa using lt_of_lt_of_le ha (le_abs_self _)
              · rfl
              · simpa [check_triggers] using h0
            · exact ih.2 pr h
        · have hv : process_order spread data (check_triggers o price dt) =
              (Except.error PyErr.typeError, 1) := by
            simp [process_order, ha]
          rw [simLoop_cons_error _ price dt o _ _ _ h0 ht hv]
          simp
      · have ht2 : (check_triggers o price dt).triggered = false := by
          cases hh : (check_triggers o price dt).triggered
          · rfl
          · exact absurd hh ht
        rw [simLoop_cons_untriggered _ price dt o _ h0 ht2]
        exact ⟨ih.1.cons o.id, ih.2⟩

/-- When every invocation of `proc` performs exactly one accessor call, the
loop's total accessor-call count is the number of orders that reach the
execution-volume step. -/
lemma simLoop_calls (proc : Order → Except PyErr (Option ℚ × ℚ) × ℕ)
    (price dt : ℚ) (l : List Order) (hc : ∀ o, (proc o).2 = 1) :
    (simLoop proc price dt l).calls = processed_count proc price dt l := by
  induction l with
  | nil => simp [simLoop_nil, processed_count]
  | cons o l ih =>
    by_cases h0 : o.open_amount = 0
    · rw [simLoop_cons_zero proc price dt o _ h0]
      simp [processed_count, h0, ih]
    · by_cases ht : (check_triggers o price dt).triggered = true
      · rcases hv : proc (check_triggers o price dt) with ⟨res, c⟩
        have hc1 : c = 1 := by
          have := hc (check_triggers o price dt)
          rw [hv] at this
          exact this
        subst hc1
        cases res with
        | error e =>
          rw [simLoop_cons_error proc price dt o _ e 1 h0 ht hv]
          have : (proc (check_triggers o price dt)).1 = Except.error e := by
            rw [hv]
          by_cases hl : e = PyErr.liquidityExceeded <;>
            simp [processed_count, h0, ht, this, hl]
        | ok v =>
          obtain ⟨op, vol⟩ := v
          have h1 : (proc (check_triggers o price dt)).1 = Except.ok (op, vol) := by
            rw [hv]
          cases op with
          | none =>
            rw [simLoop_cons_ok_none proc price dt o _ vol 1 h0 ht hv]
            simp [processed_count, h0, ht, h1, ih]
          | some px =>
            rw [simLoop_cons_ok_some proc price dt o _ px vol 1 h0 ht hv]
            simp [processed_count, h0, ht, h1, ih]
      · have ht2 : (check_triggers o price dt).triggered = false := by
          cases hh : (check_triggers o price dt).triggered
          · rfl
          · exact absurd hh ht
        rw [simLoop_cons_untriggered proc price dt o _ h0 ht2]
        simp [processed_count, h0, ht2, ih]

/-- C1: the code contradicts the claim (and the class's own docstring): the
buy branch does compute `close * (1 + spread)` (here `100 * 1.02 = 102`) with
arithmetic multiplication, but the sell branch evaluates
`price & (1 - self.spread)` — a bitwise combination of price and spread — so
for a sell order `process_order` raises `TypeError` instead of returning
`close * (1 - spread) = 98`. -/
theorem process_order_sell_raises_type_error :
    (process_order (2/100) (MarketData.mk 1000 100 0)
        (Order.mk 2 7 10 10 false true)).1 =
      Except.ok (some ((100 : ℚ) * (1 + 2/100)), 10) ∧
    (100 : ℚ) * (1 + 2/100) = 102 ∧
    (process_order (2/100) (MarketData.mk 1000 100 0)
        (Order.mk 1 7 (-5) (-5) false true)).1 =
      Except.error PyErr.typeError ∧
    (100 : ℚ) * (1 - 2/100) = 98 := by
  refine ⟨?_, by norm_num, ?_, by norm_num⟩
  · norm_num [process_order]
  · norm_num [process_order]

/-- C2, counterexample: a bar with volume 1 and a single triggered buy order
for 2 units yields a transaction of amount 2, so the sum of yielded amounts
exceeds the bar's available volume. -/
theorem fills_sum_exceeds_bar_volume :
    ¬ (((simulate (2/100) (MarketData.mk 1 100 0)
          [Order.mk 1 7 2 2 false true]).fills.map
        fun pr => pr.2.amount).sum ≤ (MarketData.mk 1 100 0).volume) := by
  simp [simulate, simulate_gen, simLoop, process_order, check_triggers]

/-- C2, amended: `simulate` would stop the batch on a `LiquidityExceeded`
signal, but the execution-volume determination step never raises one and
applies no cap against remaining bar liquidity: the bar's volume enters the
computation only through the zero test, so for any two nonzero volumes the
whole result is identical, and the sum of yielded amounts can exceed the
bar's volume. -/
theorem simulate_independent_of_nonzero_volume (spread c t v1 v2 : ℚ)
    (orders : List Order) (h1 : v1 ≠ 0) (h2 : v2 ≠ 0) :
    simulate spread (MarketData.mk v1 c t) orders =
      simulate spread (MarketData.mk v2 c t) orders := by
  have hp : process_order spread (MarketData.mk v1 c t) =
      process_order spread (MarketData.mk v2 c t) := by
    funext o
    simp [process_order]
  simp [simulate, simulate_gen, h1, h2, hp]

/-- C2, witness for the amended statement at volumes 1 and 1000000. -/
theorem simulate_independent_of_nonzero_volume_witness :
    simulate (2/100) (MarketData.mk 1 100 0) [Order.mk 1 7 2 2 false true] =
      simulate (2/100) (MarketData.mk 1000000 100 0)
        [Order.mk 1 7 2 2 false true] :=
  simulate_independent_of_nonzero_volume (2/100) 100 0 1 1000000
    [Order.mk 1 7 2 2 false true] (by norm_num) (by norm_num)

/-- C3, counterexample: a transaction with negative amount `-5` at price 2
under the default fee rates gets fee `|-5| * 2 * 0.002 = 0.02 ≠ 0`: the code
takes the absolute value, so a negative amount does not yield a zero fee. -/
theorem calculate_negative_amount_fee_nonzero :
    calculate DEFAULT_MAKER_FEE DEFAULT_TAKER_FEE
      (Order.mk 1 7 (-5) (-5) false false)
      (Transaction.mk 7 (-5) 2 0 1) ≠ 0 := by
  simp [calculate, DEFAULT_MAKER_FEE, DEFAULT_TAKER_FEE]

/-- C3, amended: `calculate` is total and never raises; it always returns
`|transaction.amount| * transaction.price * taker_fee`, so a zero transaction
amount yields a zero fee, while a negative amount yields the same fee as the
corresponding positive amount, not zero. -/
theorem calculate_total_abs_formula (m f : ℚ) (o : Order) (t : Transaction) :
    calculate m f o t = |t.amount| * t.price * f ∧
    calculate m f o { t with amount := 0 } = 0 := by
  constructor
  · simp [calculate, mul_assoc]
  · simp [calculate]

/-- C4, counterexample: with one triggered buy order, `simulate` makes three
`data.current` calls (volume, close, and the re-read of close inside
`process_order`), exceeding the claimed bound of two. -/
theorem current_calls_exceed_two :
    ¬ ((simulate (2/100) (MarketData.mk 1000 100 0)
        [Order.mk 1 7 10 10 false true]).calls ≤ 2) := by
  simp [simulate, simulate_gen, simLoop, process_order, check_triggers]

/-- C4, amended: the accessor is consulted twice at the start of the bar
(volume check and close), plus once more for every order that reaches the
execution-volume determination step, because `process_order` re-reads the
close price per order; the total is `2 + processed_count`, not at most 2. -/
theorem simulate_calls_eq_two_plus_processed (spread : ℚ) (data : MarketData)
    (orders : List Order) (hv : data.volume ≠ 0) :
    (simulate spread data orders).calls =
      2 + processed_count (process_order spread data)
        data.close data.current_dt orders := by
  have hc : ∀ o, (process_order spread data o).2 = 1 := by
    intro o
    by_cases h : 0 < o.amount <;> simp [process_order, h]
  simp [simulate, simulate_gen, hv,
    simLoop_calls (process_order spread data) data.close data.current_dt
      orders hc]

/-- C4, witness for the amended statement: one processed order, three calls. -/
theorem simulate_calls_eq_two_plus_processed_witness :
    (simulate (2/100) (MarketData.mk 1000 100 0)
        [Order.mk 1 7 10 10 false true]).calls =
      2 + processed_count (process_order (2/100) (MarketData.mk 1000 100 0))
        (MarketData.mk 1000 100 0).close (MarketData.mk 1000 100 0).current_dt
        [Order.mk 1 7 10 10 false true] :=
  simulate_calls_eq_two_plus_processed (2/100) (MarketData.mk 1000 100 0)
    [Order.mk 1 7 10 10 false true] (by norm_num)

/-- C5: if processing order `o` (after a cleanly processed prefix `l1`)
raises, the generator yields exactly the fills of `l1` — everything after `o`
is aborted while earlier fills are retained — and the escaping error is
`none` exactly when the exception is the `LiquidityExceeded` signal (which is
caught), while any other exception type propagates to the caller. -/
theorem liquidity_exceeded_aborts_batch
    (proc : Order → Except PyErr (Option ℚ × ℚ) × ℕ) (data : MarketData)
    (l1 l2 : List Order) (o : Order) (e : PyErr)
    (hv : data.volume ≠ 0)
    (hclean : cleanOrders proc data.close data.current_dt l1)
    (h0 : o.open_amount ≠ 0)
    (ht : (check_triggers o data.close data.current_dt).triggered = true)
    (he : (proc (check_triggers o data.close data.current_dt)).1 =
      Except.error e) :
    (simulate_gen proc data (l1 ++ o :: l2)).fills =
      (simulate_gen proc data l1).fills ∧
    (simulate_gen proc data (l1 ++ o :: l2)).err =
      (if e = PyErr.liquidityExceeded then none else some e) := by
  have hpr : proc (check_triggers o data.close data.current_dt) =
      (Except.error e, (proc (check_triggers o data.close data.current_dt)).2) := by
    rcases hp : proc (check_triggers o data.close data.current_dt) with ⟨res, c⟩
    rw [hp] at he
    simp only at he
    simp [he]
  have key := simLoop_append_clean proc data.close data.current_dt l1 (o :: l2)
    hclean
  rw [simLoop_cons_error proc data.close data.current_dt o l2 e _ h0 ht hpr]
    at key
  by_cases hl : e = PyErr.liquidityExceeded
  · rw [if_pos hl] at key
    exact ⟨by simp [simulate_gen, hv, key], by simp [simulate_gen, hv, key, hl]⟩
  · rw [if_neg hl] at key
    exact ⟨by simp [simulate_gen, hv, key], by simp [simulate_gen, hv, key, hl]⟩

/-- Auxiliary dispatch function for the C5 witness: raises the liquidity
signal on the order with id 9 and fills every other order. -/
def procLiq : Order → Except PyErr (Option ℚ × ℚ) × ℕ :=
  fun o =>
    if o.id = 9 then (Except.error PyErr.liquidityExceeded, 1)
    else (Except.ok (some 5, 3), 1)

/-- C5, witness: order 9 raises the liquidity signal after order 1 filled;
the fills are those of the prefix and no error escapes. -/
theorem liquidity_exceeded_aborts_batch_witness :
    (simulate_gen procLiq (MarketData.mk 50 10 0)
        ([Order.mk 1 7 3 3 false true] ++
          Order.mk 9 7 3 3 false true :: [Order.mk 2 7 3 3 false true])).fills =
      (simulate_gen procLiq (MarketData.mk 50 10 0)
        [Order.mk 1 7 3 3 false true]).fills ∧
    (simulate_gen procLiq (MarketData.mk 50 10 0)
        ([Order.mk 1 7 3 3 false true] ++
          Order.mk 9 7 3 3 false true :: [Order.mk 2 7 3 3 false true])).err =
      (if PyErr.liquidityExceeded = PyErr.liquidityExceeded then none
        else some PyErr.liquidityExceeded) :=
  liquidity_exceeded_aborts_batch procLiq (MarketData.mk 50 10 0)
    [Order.mk 1 7 3 3 false true] [Order.mk 2 7 3 3 false true]
    (Order.mk 9 7 3 3 false true) PyErr.liquidityExceeded
    (by norm_num)
    (by
      intro a ha h1 h2
      simp only [List.mem_singleton] at ha
      subst ha
      exact ⟨(some 5, 3), 1, by simp [procLiq, check_triggers]⟩)
    (by norm_num)
    rfl
    rfl

/-- C6: the commission fee is `|transaction.amount| * transaction.price *
taker_fee` for all inputs; with `taker_fee = 0` the fee is 0; and the fee is
independent of the maker rate and of the order, so the maker rate is never
applied. -/
theorem calculate_taker_fee_formula (m m2 f : ℚ) (o o2 : Order)
    (t : Transaction) :
    calculate m f o t = |t.amount| * t.price * f ∧
    calculate m 0 o t = 0 ∧
    calculate m f o t = calculate m2 f o2 t := by
  refine ⟨by simp [calculate, mul_assoc], by simp [calculate],
    by simp [calculate]⟩

/-- C7: for a bar with zero volume, `simulate` produces no fills and no
error, after the single volume read, with the accumulator still 0 — for
every dispatch function and every order list, so no order is read, triggered
or mutated and the result does not depend on the orders in any way. -/
theorem zero_volume_simulate_empty
    (proc : Order → Except PyErr (Option ℚ × ℚ) × ℕ) (data : MarketData)
    (orders : List Order) (hv : data.volume = 0) :
    simulate_gen proc data orders = SimResult.mk [] none 1 0 := by
  simp [simulate_gen, hv]

/-- C7, witness at a zero-volume bar with a triggered, unfilled order. -/
theorem zero_volume_simulate_empty_witness :
    simulate_gen (fun _ => (Except.ok ((some 1 : Option ℚ), (1 : ℚ)), 1))
      (MarketData.mk 0 100 5) [Order.mk 1 7 10 10 false true] =
      SimResult.mk [] none 1 0 :=
  zero_volume_simulate_empty _ (MarketData.mk 0 100 5)
    [Order.mk 1 7 10 10 false true] rfl

/-- C8: the orders of the yielded pairs form a sublist of the pending-order
sequence (at most one transaction per order per call), and every yielded
transaction has strictly positive amount. -/
theorem simulate_at_most_one_fill_positive_amount (spread : ℚ)
    (data : MarketData) (orders : List Order) :
    (((simulate spread data orders).fills.map fun pr => pr.1.id).Sublist
      (orders.map Order.id)) ∧
    ∀ pr ∈ (simulate spread data orders).fills, 0 < pr.2.amount := by
  by_cases hv : data.volume = 0
  · constructor
    · simp [simulate, simulate_gen, hv]
    · intro pr hpr
      simp [simulate, simulate_gen, hv] at hpr
  · have h := simLoop_fills_spec spread data data.close data.current_dt orders
    constructor
    · simpa [simulate, simulate_gen, hv] using h.1
    · intro pr hpr
      have hpr2 : pr ∈ (simLoop (process_order spread data)
          data.close data.current_dt orders).fills := by
        simpa [simulate, simulate_gen, hv] using hpr
      exact (h.2 pr hpr2).1

/-- C8, witness at a bar with two orders, one triggered and one not. -/
theorem simulate_at_most_one_fill_positive_amount_witness :
    ((((simulate (2/100) (MarketData.mk 1000 100 0)
        [Order.mk 1 7 10 10 false true, Order.mk 2 7 6 6 false false]).fills.map
      fun pr => pr.1.id).Sublist
        ([Order.mk 1 7 10 10 false true,
          Order.mk 2 7 6 6 false false].map Order.id))) ∧
    ∀ pr ∈ (simulate (2/100) (MarketData.mk 1000 100 0)
        [Order.mk 1 7 10 10 false true, Order.mk 2 7 6 6 false false]).fills,
      0 < pr.2.amount :=
  simulate_at_most_one_fill_positive_amount (2/100) (MarketData.mk 1000 100 0)
    [Order.mk 1 7 10 10 false true, Order.mk 2 7 6 6 false false]

/-- C9: orders with zero `open_amount` are skipped: removing them from the
batch changes nothing about the result (the loop just proceeds to the next
order), and no yielded pair belongs to such an order. -/
theorem zero_open_amount_skipped (spread : ℚ) (data : MarketData)
    (orders : List Order) :
    simulate spread data orders =
      simulate spread data
        (orders.filter fun o => decide (o.open_amount ≠ 0)) ∧
    ∀ pr ∈ (simulate spread data orders).fills, pr.1.open_amount ≠ 0 := by
  constructor
  · simp [simulate, simulate_gen, simLoop_filter_open]
  · intro pr hpr
    by_cases hv : data.volume = 0
    · simp [simulate, simulate_gen, hv] at hpr
    · have hpr2 : pr ∈ (simLoop (process_order spread data)
          data.close data.current_dt orders).fills := by
        simpa [simulate, simulate_gen, hv] using hpr
      exact ((simLoop_fills_spec spread data data.close data.current_dt
        orders).2 pr hpr2).2.2

/-- C9, witness: a batch holding a fully filled order and a live order. -/
theorem zero_open_amount_skipped_witness :
    simulate (2/100) (MarketData.mk 1000 100 0)
        [Order.mk 1 7 10 0 false true, Order.mk 2 7 4 4 false true] =
      simulate (2/100) (MarketData.mk 1000 100 0)
        ([Order.mk 1 7 10 0 false true,
          Order.mk 2 7 4 4 false true].filter
          fun o => decide (o.open_amount ≠ 0)) ∧
    ∀ pr ∈ (simulate (2/100) (MarketData.mk 1000 100 0)
        [Order.mk 1 7 10 0 false true, Order.mk 2 7 4 4 false true]).fills,
      pr.1.open_amount ≠ 0 :=
  zero_open_amount_skipped (2/100) (MarketData.mk 1000 100 0)
    [Order.mk 1 7 10 0 false true, Order.mk 2 7 4 4 false true]

/-- C10: for a buy order, `process_order` returns the order's original
signed requested quantity `order.amount` as the execution volume — not the
remaining `open_amount`, and with no reduction from the per-bar accumulator,
which it never receives — and consequently every yielded transaction of a
`simulate` call has amount `|order.amount|`, even for a partially filled
order. -/
theorem execution_volume_is_original_amount (spread : ℚ) (data : MarketData)
    (o : Order) (orders : List Order) (h : 0 < o.amount) :
    (process_order spread data o).1 =
      Except.ok (some (data.close * (1 + spread)), o.amount) ∧
    ∀ pr ∈ (simulate spread data orders).fills,
      pr.2.amount = |pr.1.amount| := by
  constructor
  · simp [process_order, h]
  · intro pr hpr
    by_cases hv : data.volume = 0
    · simp [simulate, simulate_gen, hv] at hpr
    · have hpr2 : pr ∈ (simLoop (process_order spread data)
          data.close data.current_dt orders).fills := by
        simpa [simulate, simulate_gen, hv] using hpr
      exact ((simLoop_fills_spec spread data data.close data.current_dt
        orders).2 pr hpr2).2.1

/-- C10, witness: an order requesting 10 with only 4 still open executes at
volume 10 (the original amount), demonstrating no reduction to
`open_amount`. -/
theorem execution_volume_is_original_amount_witness :
    (process_order (2/100) (MarketData.mk 1000 100 0)
        (Order.mk 1 7 10 4 false true)).1 =
      Except.ok (some ((MarketData.mk 1000 100 0).close * (1 + 2/100)),
        (Order.mk 1 7 10 4 false true).amount) ∧
    ∀ pr ∈ (simulate (2/100) (MarketData.mk 1000 100 0)
        [Order.mk 1 7 10 4 false true]).fills,
      pr.2.amount = |pr.1.amount| :=
  execution_volume_is_original_amount (2/100) (MarketData.mk 1000 100 0)
    (Order.mk 1 7 10 4 false true) [Order.mk 1 7 10 4 false true]
    (by norm_num)

end CatalystBlotter
